import Mathlib

/-!
Shallow embedding of the reservations-api allocation engine:
slot calendar, capacity checker, reservation lifecycle (create / delete /
lookup / list) and the single-date and batch availability calculators,
translated from `src/routes/reservations.js`, `src/routes/batch-availability.js`,
`src/validation/schemas.js` and `prisma/schema.prisma`.

Conventions: calendar dates are encoded as natural numbers in `YYYYMMDD`
form (ordering on these numerals agrees with date order inside the
configured booking window); JavaScript numbers that the validation layer
constrains to non-negative integers (`timeSlot`, `partySize`) are `Nat`;
seat arithmetic that can go negative (`availableSeats = 6 - used`) is `Int`;
the Prisma store is a list of rows, and each route is a function from the
store (plus the request) to an `Except` of a tagged error or a result.
-/

/-- `maxCapacity = 6`, the process-wide seat capacity constant
(`reservations.js` line 50, `batch-availability.js` line 49). -/
def maxCapacity : Nat := 6

/-- `maxSlot = 39`: slot 39 is 27:45-28:00, the last slot of the bookable day. -/
def maxSlot : Nat := 39

/-- `calculateOccupiedSlots` (`reservations.js` lines 61-80, identical copy in
`batch-availability.js` lines 53-72): for `timeSlot ≤ 27` the 12 slots
`timeSlot + i` (`i < 12`) kept while `≤ maxSlot`; for a late-window start
(`timeSlot > 27`) every slot from `timeSlot` up to `maxSlot`. -/
def calculateOccupiedSlots (reservationTimeSlot : Nat) : List Nat :=
  if reservationTimeSlot ≤ 27 then
    ((List.range 12).map (fun i => reservationTimeSlot + i)).filter (fun slot => slot ≤ maxSlot)
  else
    List.range' reservationTimeSlot (maxSlot + 1 - reservationTimeSlot)

/-- The inline occupied-slot computation of the create route
(`reservations.js` lines 32-48); the code there is a verbatim duplicate of
`calculateOccupiedSlots`. -/
def newReservationOccupiedSlots (timeSlot : Nat) : List Nat :=
  if timeSlot ≤ 27 then
    ((List.range 12).map (fun i => timeSlot + i)).filter (fun slot => slot ≤ maxSlot)
  else
    List.range' timeSlot (maxSlot + 1 - timeSlot)

/-- `ReservationStatus` enum from `prisma/schema.prisma`. -/
inductive ReservationStatus
  | CONFIRMED
  | NO_SHOW
  | COMPLETED
deriving DecidableEq

/-- A row of the `Reservation` table (`prisma/schema.prisma`). -/
structure Reservation where
  id : String
  date : Nat
  timeSlot : Nat
  partySize : Nat
  name : String
  phone : Option String
  email : Option String
  notes : Option String
  status : ReservationStatus
deriving DecidableEq

/-- `slotOccupiedSeats` (`reservations.js` lines 85-91): seats used at one
slot, summing `partySize` over the given reservations whose occupied-slot
set contains the slot. -/
def slotOccupiedSeats (existing : List Reservation) (slot : Nat) : Nat :=
  ((existing.filter
      (fun r => decide (slot ∈ calculateOccupiedSlots r.timeSlot))).map
    (fun r => r.partySize)).sum

/-- The transaction's store query (`reservations.js` lines 53-58): all rows
for the given date with status `CONFIRMED`. -/
def confirmedReservationsOn (store : List Reservation) (d : Nat) : List Reservation :=
  store.filter (fun r => decide (r.date = d ∧ r.status = ReservationStatus.CONFIRMED))

/-- The capacity-check loop of the create route (`reservations.js`
lines 83-100): walk the occupied slots in list order; at the first slot
where `used + partySize > maxCapacity`, report that slot together with
`maxCapacity - used` as the remaining seats; otherwise pass. -/
def checkCapacity (partySize : Nat) (existing : List Reservation) :
    List Nat → Option (Nat × Int)
  | [] => none
  | slot :: rest =>
    if maxCapacity < slotOccupiedSeats existing slot + partySize then
      some (slot, (maxCapacity : Int) - (slotOccupiedSeats existing slot : Int))
    else
      checkCapacity partySize existing rest

/-- `padStart(2, '0')` on a decimal numeral. -/
def padTwo (n : Nat) : String :=
  if n < 10 then "0" ++ toString n else toString n

/-- The time string of the capacity-conflict message (`reservations.js`
lines 95-97): hour wrapped when `≥ 24` and left unpadded, minutes padded. -/
def conflictTimeString (slot : Nat) : String :=
  let slotHour := slot / 4 + 18
  let slotMin := slot % 4 * 15
  (if 24 ≤ slotHour then toString (slotHour - 24) else toString slotHour)
    ++ ":" ++ padTwo slotMin

/-- `formatTime` of the availability endpoints (`reservations.js`
lines 318-321, `batch-availability.js` lines 118-121): hour wrapped when
`> 24`, both parts padded. -/
def formatTime (hour min : Nat) : String :=
  let displayHour := if 24 < hour then hour - 24 else hour
  padTwo displayHour ++ ":" ++ padTwo min

/-- The `time` label `"start-end"` attached to an availability entry. -/
def slotTimeLabel (slot : Nat) : String :=
  formatTime (slot / 4 + 18) (slot % 4 * 15)
    ++ "-" ++ formatTime ((slot + 1) / 4 + 18) ((slot + 1) % 4 * 15)

/-- Window bounds of `createReservationSchema` (`schemas.js` lines 4-11),
as `YYYYMMDD` numerals: 2025-06-20 and 2025-07-04. -/
def dateWindowStart : Nat := 20250620

/-- See `dateWindowStart`. -/
def dateWindowEnd : Nat := 20250704

/-- Split a character list on `'-'`, the separator of the first phone
alternative. -/
def splitOnDash : List Char → List (List Char)
  | [] => [[]]
  | c :: rest =>
    let groups := splitOnDash rest
    if c = '-' then [] :: groups
    else
      match groups with
      | [] => [[c]]
      | g :: gs => (c :: g) :: gs

/-- `lo` to `hi` decimal digits. -/
def digitGroup (lo hi : Nat) (g : List Char) : Bool :=
  decide (lo ≤ g.length) && decide (g.length ≤ hi) && g.all Char.isDigit

/-- The phone regular expression of `createReservationSchema`
(`schemas.js` line 44):
`0\d{1,4}-\d{1,4}-\d{4}` or `0\d{10}` or `\+?[1-9]\d{1,14}`, anchored. -/
def phonePattern (s : String) : Bool :=
  match splitOnDash s.toList with
  | [g1, g2, g3] =>
    (match g1 with
      | '0' :: ds => digitGroup 1 4 ds
      | _ => false)
      && digitGroup 1 4 g2 && digitGroup 4 4 g3
  | [g] =>
    (match g with
      | '0' :: ds => digitGroup 10 10 ds
      | _ => false)
    ||
    (let t := match g with
      | '+' :: rest => rest
      | _ => g
     match t with
     | c :: ds => decide ('1' ≤ c) && decide (c ≤ '9') && digitGroup 1 14 ds
     | [] => false)
  | _ => false

/-- Modelled from the spec: the email format check is performed by the
external Joi library (`Joi.string().email()`, `schemas.js` lines 49-51),
whose implementation is not part of this repository; the claims under
verification never exercise a present email, so any format predicate on
present emails is adequate here. -/
def emailFormat (e : String) : Bool :=
  e.toList.contains '@'

/-- The create-request body (`schemas.js`): `phone`, `email`, `notes` are
`Option` because a request may omit them. -/
structure CreateRequest where
  date : Nat
  timeSlot : Nat
  partySize : Nat
  name : String
  phone : Option String
  email : Option String
  notes : Option String
deriving DecidableEq

/-- `createReservationSchema` (`schemas.js` lines 3-55): date in the
configured window, integer `timeSlot` in `[0, 39]`, integer `partySize` in
`[1, 6]`, `name` of length 2-100, `phone` required and matching
`phonePattern`, `email` and `notes` optional. -/
def validateCreateReservation (req : CreateRequest) : Bool :=
  decide (dateWindowStart ≤ req.date) && decide (req.date ≤ dateWindowEnd)
    && decide (req.timeSlot ≤ 39)
    && decide (1 ≤ req.partySize) && decide (req.partySize ≤ 6)
    && decide (2 ≤ req.name.length) && decide (req.name.length ≤ 100)
    && (match req.phone with
        | some p => phonePattern p
        | none => false)
    && (match req.email with
        | some e => emailFormat e
        | none => true)
    && (match req.notes with
        | some n => decide (n.length ≤ 500)
        | none => true)

/-- Failure modes of the create route: a 400 validation error, or the 409
capacity conflict carrying the violating slot, its time string and the
remaining seats (`reservations.js` lines 93-99 and 140-145). -/
inductive CreateError
  | validationError
  | conflict (slot : Nat) (timeString : String) (availableSeats : Int)
deriving DecidableEq

/-- The row inserted by `tx.reservation.create` (`reservations.js`
lines 102-113): the request's fields with status `CONFIRMED`; the id is the
store-generated `cuid`, passed in here. -/
def createdRow (req : CreateRequest) (newId : String) : Reservation :=
  { id := newId, date := req.date, timeSlot := req.timeSlot,
    partySize := req.partySize, name := req.name, phone := req.phone,
    email := req.email, notes := req.notes,
    status := ReservationStatus.CONFIRMED }

/-- The create route (`reservations.js` lines 22-114): validate, derive the
occupied slots of the new request, read the date's CONFIRMED rows, run the
capacity check, and on success append the new CONFIRMED row. -/
def createReservation (store : List Reservation) (req : CreateRequest) (newId : String) :
    Except CreateError (List Reservation) :=
  if validateCreateReservation req then
    let occupiedSlots := newReservationOccupiedSlots req.timeSlot
    let existingReservations := confirmedReservationsOn store req.date
    match checkCapacity req.partySize existingReservations occupiedSlots with
    | some (slot, availableSeats) =>
      Except.error (CreateError.conflict slot (conflictTimeString slot) availableSeats)
    | none =>
      Except.ok (store ++ [createdRow req newId])
  else
    Except.error CreateError.validationError

/-- Not-found failure of delete and lookup-by-id. -/
inductive LookupError
  | notFound
deriving DecidableEq

/-- The delete route (`reservations.js` lines 220-248): `findUnique` by id,
404 when absent, otherwise delete the row. -/
def deleteReservation (store : List Reservation) (rid : String) :
    Except LookupError (List Reservation) :=
  if store.any (fun r => decide (r.id = rid)) then
    Except.ok (store.filter (fun r => decide (¬ r.id = rid)))
  else
    Except.error LookupError.notFound

/-- The lookup-by-id route (`reservations.js` lines 195-217): `findUnique`
by id, 404 when absent, otherwise the full stored row. -/
def getReservationById (store : List Reservation) (rid : String) :
    Except LookupError Reservation :=
  match store.find? (fun r => decide (r.id = rid)) with
  | some r => Except.ok r
  | none => Except.error LookupError.notFound

/-- The list route rejects a request without a phone filter
(`reservations.js` lines 160-165). -/
inductive ListError
  | phoneRequired
deriving DecidableEq

/-- Query parameters of the list route (`reservations.js` line 157). -/
structure ListQuery where
  phone : Option String
  date : Option Nat
  status : Option ReservationStatus
deriving DecidableEq

/-- The `where` clause built by the list route (`reservations.js`
lines 167-175): phone equality plus the optional date and status filters. -/
def matchesListQuery (p : String) (q : ListQuery) (r : Reservation) : Bool :=
  decide (r.phone = some p)
    && (match q.date with
        | some d => decide (r.date = d)
        | none => true)
    && (match q.status with
        | some st => decide (r.status = st)
        | none => true)

/-- The `orderBy: [{date: asc}, {timeSlot: asc}]` ordering
(`reservations.js` lines 179-182). -/
def reservationOrder (a b : Reservation) : Prop :=
  a.date < b.date ∨ (a.date = b.date ∧ a.timeSlot ≤ b.timeSlot)

instance : DecidableRel reservationOrder := fun a b =>
  decidable_of_iff (a.date < b.date ∨ (a.date = b.date ∧ a.timeSlot ≤ b.timeSlot)) Iff.rfl

instance : IsTotal Reservation reservationOrder :=
  ⟨by
    intro a b
    unfold reservationOrder
    omega⟩

instance : IsTrans Reservation reservationOrder :=
  ⟨by
    intro a b c
    unfold reservationOrder
    omega⟩

/-- The list route (`reservations.js` lines 155-193): without a phone the
authorization-precondition error, otherwise the matching rows ordered by
`(date, timeSlot)` ascending. -/
def listReservations (store : List Reservation) (q : ListQuery) :
    Except ListError (List Reservation) :=
  match q.phone with
  | none => Except.error ListError.phoneRequired
  | some p => Except.ok (List.insertionSort reservationOrder (store.filter (matchesListQuery p q)))

/-- One entry of an availability response (`reservations.js` lines 323-328,
`batch-availability.js` lines 123-128). -/
structure AvailabilityEntry where
  slot : Nat
  time : String
  availableSeats : Int
  maxCapacity : Nat
deriving DecidableEq

/-- The single-date availability computation (`reservations.js`
lines 296-330): for each slot `0..39` the seats used at that slot alone;
the slot is listed with `availableSeats = maxCapacity - used` when that is
positive and omitted otherwise. -/
def singleDateAvailableSlots (existing : List Reservation) : List AvailabilityEntry :=
  (List.range 40).filterMap (fun slot =>
    let usedSeats := slotOccupiedSeats existing slot
    let availableSeats : Int := (maxCapacity : Int) - (usedSeats : Int)
    if 0 < availableSeats then
      some { slot := slot, time := slotTimeLabel slot,
             availableSeats := availableSeats, maxCapacity := maxCapacity }
    else none)

/-- The single-date availability endpoint (`reservations.js`
lines 254-343): fetch the date's CONFIRMED rows and compute the slot list. -/
def availabilityForDate (store : List Reservation) (d : Nat) : List AvailabilityEntry :=
  singleDateAvailableSlots (confirmedReservationsOn store d)

/-- `minAvailableSeats` of the batch endpoint (`batch-availability.js`
lines 91-110): the minimum of `maxCapacity - used(checkSlot)` over every
slot a hypothetical reservation starting at `slot` would occupy, starting
from `maxCapacity`. -/
def batchMinAvailableSeats (existing : List Reservation) (slot : Nat) : Int :=
  (calculateOccupiedSlots slot).foldl
    (fun minAvail checkSlot =>
      min minAvail ((maxCapacity : Int) - (slotOccupiedSeats existing checkSlot : Int)))
    (maxCapacity : Int)

/-- The per-date slot list of the batch endpoint (`batch-availability.js`
lines 89-130): a slot is listed with its `minAvailableSeats` when positive
and omitted otherwise. -/
def batchDateAvailableSlots (existing : List Reservation) : List AvailabilityEntry :=
  (List.range 40).filterMap (fun slot =>
    let minAvail := batchMinAvailableSeats existing slot
    if 0 < minAvail then
      some { slot := slot, time := slotTimeLabel slot,
             availableSeats := minAvail, maxCapacity := maxCapacity }
    else none)

/-- The batch endpoint (`batch-availability.js` lines 8-159): one range
query for the CONFIRMED rows of `[startDate, endDate]`, then for each date
of the inclusive range the per-date slot list computed from the rows whose
date matches. -/
def batchAvailability (store : List Reservation) (startDate endDate : Nat) :
    List (Nat × List AvailabilityEntry) :=
  let existingReservations := store.filter (fun r =>
    decide (startDate ≤ r.date ∧ r.date ≤ endDate ∧ r.status = ReservationStatus.CONFIRMED))
  (List.range' startDate (endDate + 1 - startDate)).map (fun d =>
    (d, batchDateAvailableSlots (existingReservations.filter (fun r => decide (r.date = d)))))

/-- Written from the spec's words for comparison with the code (§4.3): for
each candidate start slot take the hypothetical occupied-slot set, compute
`used(s)` over that whole set, and offer
`availableSeats = maxCapacity - max used(s)` when positive. -/
def specSingleDateAvailableSlots (existing : List Reservation) : List AvailabilityEntry :=
  (List.range 40).filterMap (fun slot =>
    let hypothetical := calculateOccupiedSlots slot
    let maxUsed := (hypothetical.map (fun s => slotOccupiedSeats existing s)).foldl max 0
    let availableSeats : Int := (maxCapacity : Int) - (maxUsed : Int)
    if 0 < availableSeats then
      some { slot := slot, time := slotTimeLabel slot,
             availableSeats := availableSeats, maxCapacity := maxCapacity }
    else none)

/-- A client-visible operation on the store: a create attempt (with the id
the store would generate) or a delete attempt. -/
inductive StoreOp
  | create (req : CreateRequest) (newId : String)
  | delete (rid : String)

/-- Run one operation; a failed operation leaves the store unchanged (the
transaction aborts, the delete 404s). -/
def applyOp (store : List Reservation) : StoreOp → List Reservation
  | StoreOp.create req newId =>
    match createReservation store req newId with
    | Except.ok s' => s'
    | Except.error _ => store
  | StoreOp.delete rid =>
    match deleteReservation store rid with
    | Except.ok s' => s'
    | Except.error _ => store

/-- Run a sequence of operations. -/
def applyOps (store : List Reservation) (ops : List StoreOp) : List Reservation :=
  ops.foldl applyOp store

/-- The capacity invariant (spec §3): for every date and slot, CONFIRMED
reservations occupying the slot sum to at most `maxCapacity`. -/
def CapacityInvariant (store : List Reservation) : Prop :=
  ∀ d slot, slotOccupiedSeats (confirmedReservationsOn store d) slot ≤ maxCapacity

/-! ### Slot-calendar lemmas -/

theorem newReservationOccupiedSlots_eq_calculateOccupiedSlots :
    newReservationOccupiedSlots = calculateOccupiedSlots := rfl

theorem calculateOccupiedSlots_regular {s : Nat} (h : s ≤ 27) :
    calculateOccupiedSlots s = List.range' s 12 := by
  unfold calculateOccupiedSlots
  rw [if_pos h, ← List.range'_eq_map_range]
  apply List.filter_eq_self.mpr
  intro a ha
  rw [List.mem_range'_1] at ha
  simp only [decide_eq_true_eq, maxSlot]
  omega

theorem calculateOccupiedSlots_late {s : Nat} (h : 27 < s) :
    calculateOccupiedSlots s = List.range' s (40 - s) := by
  unfold calculateOccupiedSlots
  rw [if_neg (by omega)]
  rfl

theorem mem_calculateOccupiedSlots {s t : Nat} :
    t ∈ calculateOccupiedSlots s ↔
      (s ≤ 27 ∧ s ≤ t ∧ t < s + 12) ∨ (27 < s ∧ s ≤ t ∧ t ≤ 39) := by
  by_cases h : s ≤ 27
  · rw [calculateOccupiedSlots_regular h, List.mem_range'_1]
    omega
  · rw [calculateOccupiedSlots_late (by omega), List.mem_range'_1]
    omega

theorem calculateOccupiedSlots_pairwise (s : Nat) :
    (calculateOccupiedSlots s).Pairwise (· < ·) := by
  by_cases h : s ≤ 27
  · rw [calculateOccupiedSlots_regular h]
    exact List.pairwise_lt_range' s 12
  · rw [calculateOccupiedSlots_late (by omega)]
    exact List.pairwise_lt_range' s (40 - s)

/-! ### Capacity-checker lemmas -/

theorem checkCapacity_nil (p : Nat) (ex : List Reservation) :
    checkCapacity p ex [] = none := rfl

theorem checkCapacity_cons (p : Nat) (ex : List Reservation) (a : Nat) (rest : List Nat) :
    checkCapacity p ex (a :: rest) =
      if maxCapacity < slotOccupiedSeats ex a + p then
        some (a, (maxCapacity : Int) - (slotOccupiedSeats ex a : Int))
      else
        checkCapacity p ex rest := rfl

theorem checkCapacity_eq_none_iff (p : Nat) (ex : List Reservation) (occ : List Nat) :
    checkCapacity p ex occ = none ↔
      ∀ s ∈ occ, slotOccupiedSeats ex s + p ≤ maxCapacity := by
  induction occ with
  | nil => simp [checkCapacity_nil]
  | cons a rest ih =>
    rw [checkCapacity_cons]
    by_cases h : maxCapacity < slotOccupiedSeats ex a + p
    · rw [if_pos h]
      constructor
      · intro hc
        exact absurd hc (by simp)
      · intro hall
        exact absurd (hall a (List.mem_cons_self a rest)) (by omega)
    · rw [if_neg h, ih]
      constructor
      · intro hall t ht
        rcases List.mem_cons.mp ht with rfl | ht'
        · omega
        · exact hall t ht'
      · intro hall t ht
        exact hall t (List.mem_cons_of_mem a ht)

theorem checkCapacity_eq_some (p : Nat) (ex : List Reservation) (occ : List Nat)
    {s : Nat} {r : Int} (h : checkCapacity p ex occ = some (s, r)) :
    s ∈ occ ∧ maxCapacity < slotOccupiedSeats ex s + p ∧
      r = (maxCapacity : Int) - (slotOccupiedSeats ex s : Int) := by
  induction occ with
  | nil => simp [checkCapacity_nil] at h
  | cons a rest ih =>
    rw [checkCapacity_cons] at h
    by_cases hc : maxCapacity < slotOccupiedSeats ex a + p
    · rw [if_pos hc, Option.some_inj] at h
      have h1 : a = s := congrArg Prod.fst h
      have h2 : (maxCapacity : Int) - (slotOccupiedSeats ex a : Int) = r :=
        congrArg Prod.snd h
      subst h1
      exact ⟨List.mem_cons_self a rest, hc, h2.symm⟩
    · rw [if_neg hc] at h
      obtain ⟨hm, hlt, hr⟩ := ih h
      exact ⟨List.mem_cons_of_mem a hm, hlt, hr⟩

theorem checkCapacity_first (p : Nat) (ex : List Reservation) (occ : List Nat)
    (hpw : occ.Pairwise (· < ·)) {s : Nat} {r : Int}
    (h : checkCapacity p ex occ = some (s, r)) :
    ∀ t ∈ occ, t < s → slotOccupiedSeats ex t + p ≤ maxCapacity := by
  induction occ with
  | nil => simp [checkCapacity_nil] at h
  | cons a rest ih =>
    rw [List.pairwise_cons] at hpw
    rw [checkCapacity_cons] at h
    by_cases hc : maxCapacity < slotOccupiedSeats ex a + p
    · rw [if_pos hc, Option.some_inj] at h
      have hs : a = s := congrArg Prod.fst h
      subst hs
      intro t ht htlt
      rcases List.mem_cons.mp ht with rfl | htr
      · omega
      · exact absurd htlt (by have := hpw.1 t htr; omega)
    · rw [if_neg hc] at h
      intro t ht htlt
      rcases List.mem_cons.mp ht with rfl | htr
      · omega
      · exact ih hpw.2 h t htr htlt

/-- C4: for every start slot `s ≤ 39`: if `s ≤ 27` the occupied-slot set is
exactly the 12 consecutive indices `{s, …, s+11}` (`range' s 12`; the clip
at 39 never bites there since `s + 11 ≤ 38`), and if `28 ≤ s ≤ 39` it is
exactly `{s, …, 39}` (`range' s (40 - s)`); and the create route applies
the very same rule to the new request (`newReservationOccupiedSlots`) as
`calculateOccupiedSlots` applies to every existing reservation. -/
theorem occupiedSlots_characterization (s : Nat) (h : s ≤ 39) :
    (s ≤ 27 → calculateOccupiedSlots s = List.range' s 12) ∧
    (28 ≤ s → calculateOccupiedSlots s = List.range' s (40 - s)) ∧
    newReservationOccupiedSlots s = calculateOccupiedSlots s := by
  refine ⟨fun hr => calculateOccupiedSlots_regular hr,
    fun hl => calculateOccupiedSlots_late (by omega), rfl⟩

theorem occupiedSlots_characterization_witness :
    calculateOccupiedSlots 5 = List.range' 5 12 ∧
    calculateOccupiedSlots 30 = List.range' 30 10 := by
  exact ⟨(occupiedSlots_characterization 5 (by decide)).1 (by decide),
    (occupiedSlots_characterization 30 (by decide)).2.1 (by decide)⟩

/-- A stored CONFIRMED reservation of six guests at slot 8 (20:00),
occupying slots 8-19; used by several concrete evaluations below. -/
def fullPartyAtSlot8 : Reservation :=
  { id := "r1", date := 20250625, timeSlot := 8, partySize := 6,
    name := "Full Party", phone := some "09012345678",
    email := none, notes := none, status := ReservationStatus.CONFIRMED }

/-- C5: the create route's capacity check walks the new reservation's
occupied slots in ascending order and returns a conflict exactly when some
occupied slot `s` has `used(s) + partySize > maxCapacity`, reporting the
first (least) such slot and `maxCapacity - used(s)` as the remaining seats;
when no occupied slot violates the bound the check passes and the
reservation row is inserted. -/
theorem capacityCheck_firstViolation (p : Nat) (ex : List Reservation) (ts : Nat) :
    (checkCapacity p ex (calculateOccupiedSlots ts) = none ↔
      ∀ s ∈ calculateOccupiedSlots ts, slotOccupiedSeats ex s + p ≤ maxCapacity) ∧
    (∀ s r, checkCapacity p ex (calculateOccupiedSlots ts) = some (s, r) →
      s ∈ calculateOccupiedSlots ts ∧
      maxCapacity < slotOccupiedSeats ex s + p ∧
      r = (maxCapacity : Int) - (slotOccupiedSeats ex s : Int) ∧
      ∀ t ∈ calculateOccupiedSlots ts, t < s → slotOccupiedSeats ex t + p ≤ maxCapacity) ∧
    (∀ store req newId, validateCreateReservation req = true →
      checkCapacity req.partySize (confirmedReservationsOn store req.date)
          (newReservationOccupiedSlots req.timeSlot) = none →
      createReservation store req newId = Except.ok (store ++ [createdRow req newId])) := by
  refine ⟨checkCapacity_eq_none_iff p ex _, fun s r h => ?_, fun store req newId hval hcc => ?_⟩
  · obtain ⟨hm, hlt, hr⟩ := checkCapacity_eq_some p ex _ h
    exact ⟨hm, hlt, hr,
      checkCapacity_first p ex _ (calculateOccupiedSlots_pairwise ts) h⟩
  · simp only [createReservation, hval, if_true, hcc]

theorem capacityCheck_firstViolation_witness :
    8 ∈ calculateOccupiedSlots 0 ∧
    maxCapacity < slotOccupiedSeats [fullPartyAtSlot8] 8 + 1 ∧
    (0 : Int) = (maxCapacity : Int) - (slotOccupiedSeats [fullPartyAtSlot8] 8 : Int) ∧
    ∀ t ∈ calculateOccupiedSlots 0, t < 8 →
      slotOccupiedSeats [fullPartyAtSlot8] t + 1 ≤ maxCapacity :=
  (capacityCheck_firstViolation 1 [fullPartyAtSlot8] 0).2.1 8 0 (by decide)

/-! ### Store-update lemmas -/

theorem slotOccupiedSeats_append (rs : List Reservation) (n : Reservation) (s : Nat) :
    slotOccupiedSeats (rs ++ [n]) s =
      slotOccupiedSeats rs s +
        (if s ∈ calculateOccupiedSlots n.timeSlot then n.partySize else 0) := by
  unfold slotOccupiedSeats
  rw [List.filter_append, List.map_append, List.sum_append]
  congr 1
  rw [List.filter_singleton]
  by_cases h : s ∈ calculateOccupiedSlots n.timeSlot
  · simp [h]
  · simp [h]

theorem confirmedReservationsOn_append (store : List Reservation) (n : Reservation) (d : Nat) :
    confirmedReservationsOn (store ++ [n]) d =
      confirmedReservationsOn store d ++
        (if n.date = d ∧ n.status = ReservationStatus.CONFIRMED then [n] else []) := by
  unfold confirmedReservationsOn
  rw [List.filter_append, List.filter_singleton]
  by_cases h : n.date = d ∧ n.status = ReservationStatus.CONFIRMED
  · simp [h]
  · simp [h]

theorem slotOccupiedSeats_sublist {rs₁ rs₂ : List Reservation}
    (h : rs₁.Sublist rs₂) (s : Nat) :
    slotOccupiedSeats rs₁ s ≤ slotOccupiedSeats rs₂ s :=
  List.Sublist.sum_le_sum ((h.filter _).map _) (fun a _ => Nat.zero_le a)

theorem createReservation_ok {store : List Reservation} {req : CreateRequest}
    {newId : String} {s' : List Reservation}
    (h : createReservation store req newId = Except.ok s') :
    validateCreateReservation req = true ∧
    checkCapacity req.partySize (confirmedReservationsOn store req.date)
        (newReservationOccupiedSlots req.timeSlot) = none ∧
    s' = store ++ [createdRow req newId] := by
  simp only [createReservation] at h
  by_cases hval : validateCreateReservation req = true
  · rw [if_pos hval] at h
    cases hcc : checkCapacity req.partySize (confirmedReservationsOn store req.date)
        (newReservationOccupiedSlots req.timeSlot) with
    | some pr =>
      obtain ⟨slot, avail⟩ := pr
      rw [hcc] at h
      exact absurd h (by simp)
    | none =>
      rw [hcc] at h
      injection h with h'
      exact ⟨hval, rfl, h'.symm⟩
  · rw [if_neg hval] at h
    exact absurd h (by simp)

theorem capacityInvariant_create (store : List Reservation) (req : CreateRequest)
    (newId : String) (hinv : CapacityInvariant store) :
    CapacityInvariant (applyOp store (StoreOp.create req newId)) := by
  simp only [applyOp]
  cases hc : createReservation store req newId with
  | error e => exact hinv
  | ok s' =>
    obtain ⟨hval, hcc, rfl⟩ := createReservation_ok hc
    intro d s
    rw [confirmedReservationsOn_append]
    by_cases hmatch : (createdRow req newId).date = d ∧
        (createdRow req newId).status = ReservationStatus.CONFIRMED
    · rw [if_pos hmatch, slotOccupiedSeats_append]
      have hd : d = req.date := by
        rw [← hmatch.1]
        rfl
      by_cases hs : s ∈ calculateOccupiedSlots (createdRow req newId).timeSlot
      · rw [if_pos hs]
        have hocc : s ∈ newReservationOccupiedSlots req.timeSlot := by
          rw [newReservationOccupiedSlots_eq_calculateOccupiedSlots]
          exact hs
        have hbound := (checkCapacity_eq_none_iff _ _ _).mp hcc s hocc
        subst hd
        exact hbound
      · rw [if_neg hs, Nat.add_zero]
        exact hinv d s
    · rw [if_neg hmatch, List.append_nil]
      exact hinv d s

theorem capacityInvariant_delete (store : List Reservation) (rid : String)
    (hinv : CapacityInvariant store) :
    CapacityInvariant (applyOp store (StoreOp.delete rid)) := by
  simp only [applyOp, deleteReservation]
  by_cases h : store.any (fun r => decide (r.id = rid))
  · rw [if_pos h]
    intro d s
    have hsub : (store.filter (fun r => decide (¬ r.id = rid))).Sublist store :=
      List.filter_sublist store
    exact le_trans (slotOccupiedSeats_sublist (hsub.filter _) s) (hinv d s)
  · rw [if_neg h]
    exact hinv

theorem capacityInvariant_applyOps (ops : List StoreOp) :
    ∀ store, CapacityInvariant store → CapacityInvariant (applyOps store ops) := by
  induction ops with
  | nil => exact fun store h => h
  | cons op rest ih =>
    intro store h
    have h1 : CapacityInvariant (applyOp store op) := by
      cases op with
      | create req newId => exact capacityInvariant_create store req newId h
      | delete rid => exact capacityInvariant_delete store rid h
    exact ih _ h1

/-- C1: starting from any store satisfying the capacity invariant, any
sequence of create and delete operations preserves it — for every date and
slot, CONFIRMED reservations whose occupied-slot set (late-window rule)
contains the slot sum to at most `maxCapacity = 6`; and the create
operation inserts a row only when every slot it would occupy has
`used + partySize ≤ 6` against the date's existing CONFIRMED rows. -/
theorem capacityInvariant_preserved (store : List Reservation) (ops : List StoreOp)
    (hinv : CapacityInvariant store) :
    CapacityInvariant (applyOps store ops) ∧
    ∀ req newId s', createReservation store req newId = Except.ok s' →
      ∀ t ∈ newReservationOccupiedSlots req.timeSlot,
        slotOccupiedSeats (confirmedReservationsOn store req.date) t + req.partySize ≤
          maxCapacity := by
  refine ⟨capacityInvariant_applyOps ops store hinv, fun req newId s' hcr t ht => ?_⟩
  obtain ⟨hval, hcc, _⟩ := createReservation_ok hcr
  exact (checkCapacity_eq_none_iff _ _ _).mp hcc t ht

/-- A create request that passes `createReservationSchema`: in-window date,
slot 8 (20:00), party of four, a well-formed name and phone. -/
def sampleCreateRequest : CreateRequest :=
  { date := 20250625, timeSlot := 8, partySize := 4, name := "Test Party",
    phone := some "09012345678", email := none, notes := none }

theorem capacityInvariant_preserved_witness :
    slotOccupiedSeats
      (confirmedReservationsOn
        (applyOps [] [StoreOp.create sampleCreateRequest "id1"]) 20250625) 8 ≤ maxCapacity :=
  (capacityInvariant_preserved [] [StoreOp.create sampleCreateRequest "id1"]
    (fun d s => by simp [slotOccupiedSeats, confirmedReservationsOn])).1 20250625 8

/-- C9: if a valid create succeeds on a store that does not already contain
the generated id, deleting the created reservation by that id returns the
store to exactly its prior contents, so availability at every slot of every
date is restored to its prior value. -/
theorem createDelete_roundTrip (store : List Reservation) (req : CreateRequest)
    (newId : String) (s' : List Reservation)
    (hfresh : ∀ r ∈ store, r.id ≠ newId)
    (hcreate : createReservation store req newId = Except.ok s') :
    deleteReservation s' newId = Except.ok store ∧
    ∀ s'', deleteReservation s' newId = Except.ok s'' →
      ∀ d, availabilityForDate s'' d = availabilityForDate store d := by
  obtain ⟨-, -, rfl⟩ := createReservation_ok hcreate
  have hdel : deleteReservation (store ++ [createdRow req newId]) newId = Except.ok store := by
    unfold deleteReservation
    have hany : (store ++ [createdRow req newId]).any (fun r => decide (r.id = newId)) = true := by
      rw [List.any_eq_true]
      exact ⟨createdRow req newId, by simp, by simp [createdRow]⟩
    rw [if_pos hany]
    congr 1
    rw [List.filter_append]
    have h1 : store.filter (fun r => decide (¬ r.id = newId)) = store :=
      List.filter_eq_self.mpr (fun r hr => by simpa using hfresh r hr)
    have h2 : [createdRow req newId].filter (fun r => decide (¬ r.id = newId)) = [] := by
      simp [createdRow]
    rw [h1, h2, List.append_nil]
  refine ⟨hdel, fun s'' h d => ?_⟩
  rw [hdel] at h
  injection h with h'
  rw [← h']

theorem createDelete_roundTrip_witness :
    deleteReservation ([] ++ [createdRow sampleCreateRequest "id1"]) "id1" = Except.ok [] :=
  (createDelete_roundTrip [] sampleCreateRequest "id1"
    ([] ++ [createdRow sampleCreateRequest "id1"])
    (by intro r hr; cases hr)
    (by rfl)).1

/-! ### Lookup and list lemmas -/

theorem find?_id_of_mem :
    ∀ (store : List Reservation), (store.map (fun r => r.id)).Nodup →
      ∀ r ∈ store, store.find? (fun x => decide (x.id = r.id)) = some r := by
  intro store
  induction store with
  | nil =>
    intro _ r hr
    cases hr
  | cons h t ih =>
    intro hnodup r hr
    rw [List.map_cons, List.nodup_cons] at hnodup
    rcases List.mem_cons.mp hr with rfl | hrt
    · rw [List.find?_cons_of_pos _ (by simp)]
    · rw [List.find?_cons_of_neg _ (by
        simp only [decide_eq_true_eq]
        intro he
        exact hnodup.1 (he ▸ List.mem_map_of_mem (fun x => x.id) hrt))]
      exact ih hnodup.2 r hrt

/-- C10: lookup by id returns the full stored record whenever a reservation
with that id exists and a not-found error exactly when it does not; the
route takes only the id — no phone-number precondition guards it, unlike
the list route. -/
theorem getReservationById_spec (store : List Reservation)
    (hnodup : (store.map (fun r => r.id)).Nodup) :
    (∀ r ∈ store, getReservationById store r.id = Except.ok r) ∧
    (∀ rid, (∀ r ∈ store, r.id ≠ rid) →
      getReservationById store rid = Except.error LookupError.notFound) := by
  constructor
  · intro r hr
    unfold getReservationById
    rw [find?_id_of_mem store hnodup r hr]
  · intro rid hnone
    unfold getReservationById
    rw [List.find?_eq_none.mpr (fun x hx => by simpa using hnone x hx)]

theorem getReservationById_spec_witness :
    getReservationById [fullPartyAtSlot8] "r1" = Except.ok fullPartyAtSlot8 :=
  (getReservationById_spec [fullPartyAtSlot8] (by simp)).1 fullPartyAtSlot8 (by simp)

/-- C8: a list request without a phone filter is rejected with the
authorization-precondition error for every store (no stored data can
change the outcome); a request with a phone returns exactly the
reservations whose phone equals it, further filtered by the optional date
and status parameters, ordered by `(date, timeSlot)` ascending. -/
theorem listReservations_spec (store : List Reservation) (q : ListQuery) :
    (q.phone = none → listReservations store q = Except.error ListError.phoneRequired) ∧
    (∀ p, q.phone = some p →
      ∃ l, listReservations store q = Except.ok l ∧
        l.Perm (store.filter (matchesListQuery p q)) ∧
        l.Sorted reservationOrder ∧
        ∀ r ∈ l, r.phone = some p ∧
          (∀ d, q.date = some d → r.date = d) ∧
          (∀ st, q.status = some st → r.status = st)) := by
  constructor
  · intro hp
    simp [listReservations, hp]
  · intro p hp
    refine ⟨List.insertionSort reservationOrder (store.filter (matchesListQuery p q)),
      by simp [listReservations, hp], List.perm_insertionSort _ _,
      List.sorted_insertionSort _ _, ?_⟩
    intro r hr
    rw [List.mem_insertionSort] at hr
    have hm := List.of_mem_filter hr
    refine ⟨?_, ?_, ?_⟩
    · simp only [matchesListQuery, Bool.and_eq_true, decide_eq_true_eq] at hm
      exact hm.1.1
    · intro d hd
      simp only [matchesListQuery, hd, Bool.and_eq_true, decide_eq_true_eq] at hm
      exact hm.1.2
    · intro st hst
      simp only [matchesListQuery, hst, Bool.and_eq_true, decide_eq_true_eq] at hm
      exact hm.2

theorem listReservations_spec_witness :
    listReservations [fullPartyAtSlot8]
        { phone := none, date := none, status := none } =
      Except.error ListError.phoneRequired ∧
    ∃ l, listReservations [fullPartyAtSlot8]
        { phone := some "09012345678", date := none, status := none } = Except.ok l ∧
      l.Perm ([fullPartyAtSlot8].filter
        (matchesListQuery "09012345678" { phone := some "09012345678", date := none, status := none })) ∧
      l.Sorted reservationOrder ∧
      ∀ r ∈ l, r.phone = some "09012345678" ∧
        (∀ d, ({ phone := some "09012345678", date := none, status := none } : ListQuery).date = some d → r.date = d) ∧
        (∀ st, ({ phone := some "09012345678", date := none, status := none } : ListQuery).status = some st → r.status = st) :=
  ⟨(listReservations_spec [fullPartyAtSlot8]
      { phone := none, date := none, status := none }).1 rfl,
    (listReservations_spec [fullPartyAtSlot8]
      { phone := some "09012345678", date := none, status := none }).2 "09012345678" rfl⟩

/-- A create request that is valid in every field the schema checks except
that it omits `phone`. -/
def noPhoneRequest : CreateRequest :=
  { date := 20250625, timeSlot := 4, partySize := 2, name := "Test Customer",
    phone := none, email := none, notes := none }

/-- C7 counterexample: a create request with a valid date, timeSlot,
partySize and name but no phone fails `createReservationSchema` — the
schema marks `phone` as required — so the create route returns a
validation error rather than accepting it. -/
theorem phoneOmitted_rejected_counterexample :
    validateCreateReservation noPhoneRequest = false ∧
    createReservation [] noPhoneRequest "id1" = Except.error CreateError.validationError :=
  ⟨rfl, rfl⟩

/-- C7 amended: `phone` is a required input of the create operation: every
create request omitting it fails validation (and is rejected before any
capacity check or insert), whatever the other fields and the store. -/
theorem phoneRequired_forCreate (req : CreateRequest) (store : List Reservation)
    (newId : String) (hphone : req.phone = none) :
    validateCreateReservation req = false ∧
    createReservation store req newId = Except.error CreateError.validationError := by
  have hv : validateCreateReservation req = false := by
    simp [validateCreateReservation, hphone]
  exact ⟨hv, by simp [createReservation, hv]⟩

theorem phoneRequired_forCreate_witness :
    validateCreateReservation noPhoneRequest = false ∧
    createReservation [] noPhoneRequest "id9" = Except.error CreateError.validationError :=
  phoneRequired_forCreate noPhoneRequest [] "id9" rfl

/-! ### Availability lemmas -/

theorem singleDateAvailableSlots_eq (existing : List Reservation) :
    singleDateAvailableSlots existing =
      (List.range 40).filterMap (fun slot =>
        if 0 < (maxCapacity : Int) - (slotOccupiedSeats existing slot : Int) then
          some { slot := slot, time := slotTimeLabel slot,
                 availableSeats := (maxCapacity : Int) - (slotOccupiedSeats existing slot : Int),
                 maxCapacity := maxCapacity }
        else none) := rfl

theorem batchDateAvailableSlots_eq (existing : List Reservation) :
    batchDateAvailableSlots existing =
      (List.range 40).filterMap (fun slot =>
        if 0 < batchMinAvailableSeats existing slot then
          some { slot := slot, time := slotTimeLabel slot,
                 availableSeats := batchMinAvailableSeats existing slot,
                 maxCapacity := maxCapacity }
        else none) := rfl

theorem mem_availList {v : Nat → Int} {e : AvailabilityEntry} :
    (e ∈ (List.range 40).filterMap (fun slot =>
        if 0 < v slot then
          some { slot := slot, time := slotTimeLabel slot, availableSeats := v slot,
                 maxCapacity := maxCapacity }
        else none)) ↔
      (e.slot < 40 ∧ 0 < v e.slot ∧
        e = { slot := e.slot, time := slotTimeLabel e.slot, availableSeats := v e.slot,
              maxCapacity := maxCapacity }) := by
  rw [List.mem_filterMap]
  constructor
  · rintro ⟨a, ha, hf⟩
    rw [List.mem_range] at ha
    by_cases hc : 0 < v a
    · rw [if_pos hc, Option.some_inj] at hf
      subst hf
      exact ⟨ha, hc, rfl⟩
    · rw [if_neg hc] at hf
      cases hf
  · rintro ⟨ha, hc, he⟩
    refine ⟨e.slot, List.mem_range.mpr ha, ?_⟩
    rw [if_pos hc, ← he]

theorem singleDate_mem_iff (existing : List Reservation) (s : Nat) (hs : s < 40) :
    (∃ e ∈ singleDateAvailableSlots existing, e.slot = s) ↔
      slotOccupiedSeats existing s < maxCapacity := by
  constructor
  · rintro ⟨e, he, rfl⟩
    rw [singleDateAvailableSlots_eq] at he
    have h := (mem_availList.mp he).2.1
    omega
  · intro h
    refine ⟨⟨s, slotTimeLabel s,
      (maxCapacity : Int) - (slotOccupiedSeats existing s : Int), maxCapacity⟩, ?_, rfl⟩
    rw [singleDateAvailableSlots_eq]
    refine mem_availList.mpr ⟨hs, ?_, rfl⟩
    show 0 < (maxCapacity : Int) - (slotOccupiedSeats existing s : Int)
    omega

theorem singleDate_value (existing : List Reservation) :
    ∀ e ∈ singleDateAvailableSlots existing,
      e.availableSeats = (maxCapacity : Int) - (slotOccupiedSeats existing e.slot : Int) ∧
      0 < e.availableSeats := by
  intro e he
  rw [singleDateAvailableSlots_eq] at he
  obtain ⟨h1, h2, he'⟩ := mem_availList.mp he
  constructor
  · rw [he']
  · rw [he']
    exact h2

theorem foldl_min_pos (g : Nat → Int) :
    ∀ (l : List Nat) (init : Int),
      (0 < l.foldl (fun m t => min m (g t)) init ↔ 0 < init ∧ ∀ t ∈ l, 0 < g t) := by
  intro l
  induction l with
  | nil =>
    intro init
    simp
  | cons a rest ih =>
    intro init
    rw [List.foldl_cons, ih]
    constructor
    · rintro ⟨hmin, hall⟩
      rw [lt_min_iff] at hmin
      refine ⟨hmin.1, fun t ht => ?_⟩
      rcases List.mem_cons.mp ht with rfl | h'
      · exact hmin.2
      · exact hall t h'
    · rintro ⟨hinit, hall⟩
      exact ⟨lt_min_iff.mpr ⟨hinit, hall a (List.mem_cons_self a rest)⟩,
        fun t ht => hall t (List.mem_cons_of_mem a ht)⟩

theorem batchMin_pos_iff (existing : List Reservation) (s : Nat) :
    0 < batchMinAvailableSeats existing s ↔
      ∀ t ∈ calculateOccupiedSlots s, slotOccupiedSeats existing t < maxCapacity := by
  unfold batchMinAvailableSeats
  rw [foldl_min_pos]
  constructor
  · intro h t ht
    have := h.2 t ht
    omega
  · intro h
    refine ⟨by simp [maxCapacity], fun t ht => ?_⟩
    have := h t ht
    omega

theorem batchDate_mem_iff (existing : List Reservation) (s : Nat) (hs : s < 40) :
    (∃ e ∈ batchDateAvailableSlots existing, e.slot = s) ↔
      ∀ t ∈ calculateOccupiedSlots s, slotOccupiedSeats existing t < maxCapacity := by
  constructor
  · rintro ⟨e, he, rfl⟩
    rw [batchDateAvailableSlots_eq] at he
    exact (batchMin_pos_iff existing e.slot).mp (mem_availList.mp he).2.1
  · intro h
    refine ⟨⟨s, slotTimeLabel s, batchMinAvailableSeats existing s, maxCapacity⟩, ?_, rfl⟩
    rw [batchDateAvailableSlots_eq]
    exact mem_availList.mpr ⟨hs, (batchMin_pos_iff existing s).mpr h, rfl⟩

theorem batchDate_value (existing : List Reservation) :
    ∀ e ∈ batchDateAvailableSlots existing,
      e.availableSeats = batchMinAvailableSeats existing e.slot ∧
      0 < e.availableSeats := by
  intro e he
  rw [batchDateAvailableSlots_eq] at he
  obtain ⟨h1, h2, he'⟩ := mem_availList.mp he
  constructor
  · rw [he']
  · rw [he']
    exact h2

theorem foldl_min_sub (g : Nat → Nat) :
    ∀ (l : List Nat) (acc : Nat),
      l.foldl (fun m t => min m ((maxCapacity : Int) - (g t : Int)))
        ((maxCapacity : Int) - (acc : Int)) =
      (maxCapacity : Int) - ((l.foldl (fun m t => max m (g t)) acc : Nat) : Int) := by
  intro l
  induction l with
  | nil =>
    intro acc
    rfl
  | cons a rest ih =>
    intro acc
    rw [List.foldl_cons, List.foldl_cons]
    have h : min ((maxCapacity : Int) - (acc : Int)) ((maxCapacity : Int) - (g a : Int)) =
        (maxCapacity : Int) - ((max acc (g a) : Nat) : Int) := by
      push_cast
      omega
    rw [h, ih]

theorem batchMin_eq_sub_max (existing : List Reservation) (s : Nat) :
    batchMinAvailableSeats existing s =
      (maxCapacity : Int) -
        (((((calculateOccupiedSlots s).map
            (fun t => slotOccupiedSeats existing t)).foldl max 0 : Nat) : Int)) := by
  have h := foldl_min_sub (fun t => slotOccupiedSeats existing t) (calculateOccupiedSlots s) 0
  rw [List.foldl_map, ← h]
  simp [batchMinAvailableSeats]

theorem specSingle_eq_batch (existing : List Reservation) :
    specSingleDateAvailableSlots existing = batchDateAvailableSlots existing := by
  unfold specSingleDateAvailableSlots batchDateAvailableSlots
  apply List.filterMap_congr
  intro s hs
  simp only [batchMin_eq_sub_max]

/-- C2 counterexample: with one CONFIRMED six-guest reservation at slot 8,
the single-date availability computation of the code differs from the
spec's formula `availableSeats = maxCapacity - max used over the
hypothetical occupied-slot set`: the code returns slot 0 with 6 seats
(slot 0 itself is unused) although a reservation starting at slot 0 would
span the fully booked slot 8. -/
theorem singleDateAvailability_specFormula_counterexample :
    singleDateAvailableSlots [fullPartyAtSlot8] ≠
      specSingleDateAvailableSlots [fullPartyAtSlot8] := by
  decide

/-- C2 amended: the single-date availability computation assigns to each
candidate start slot `availableSeats = maxCapacity - used(s)` computed at
the start slot alone (a slot appears exactly when its own usage is below
capacity), not over the full hypothetical duration; the spec's
max-over-the-hypothetical-set formula is exactly what the batch endpoint's
per-date computation implements. -/
theorem singleDateAvailability_startSlotOnly (existing : List Reservation) (s : Nat)
    (hs : s < 40) :
    ((∃ e ∈ singleDateAvailableSlots existing, e.slot = s) ↔
      slotOccupiedSeats existing s < maxCapacity) ∧
    (∀ e ∈ singleDateAvailableSlots existing, e.slot = s →
      e.availableSeats = (maxCapacity : Int) - (slotOccupiedSeats existing s : Int)) ∧
    specSingleDateAvailableSlots existing = batchDateAvailableSlots existing := by
  refine ⟨singleDate_mem_iff existing s hs, ?_, specSingle_eq_batch existing⟩
  intro e he hslot
  subst hslot
  exact (singleDate_value existing e he).1

theorem singleDateAvailability_startSlotOnly_witness :
    slotOccupiedSeats [fullPartyAtSlot8] 0 < maxCapacity :=
  ((singleDateAvailability_startSlotOnly [fullPartyAtSlot8] 0 (by decide)).1).mp (by decide)

/-- C6 counterexample: with one CONFIRMED six-guest reservation at slot 8,
slot 0 is returned by the single-date availability computation even though
a hypothetical reservation starting at slot 0 would violate capacity at
its occupied slot 8 — so "omitted iff a hypothetical reservation starting
there would violate capacity at some occupied slot" fails for the
single-date endpoint. -/
theorem availabilityOmission_counterexample :
    (∃ e ∈ singleDateAvailableSlots [fullPartyAtSlot8], e.slot = 0) ∧
    ¬ (∀ t ∈ calculateOccupiedSlots 0,
        slotOccupiedSeats [fullPartyAtSlot8] t < maxCapacity) := by
  decide

/-- C6 amended: the batch endpoint omits a candidate start slot exactly
when a hypothetical reservation starting there would violate capacity at
one or more of its occupied slots; the single-date endpoint instead omits
a slot exactly when the start slot itself is at capacity; in both, omitted
slots are absent from the list and every returned entry has
`availableSeats > 0`. -/
theorem availabilityOmission (existing : List Reservation) (s : Nat) (hs : s < 40) :
    ((∃ e ∈ batchDateAvailableSlots existing, e.slot = s) ↔
      ∀ t ∈ calculateOccupiedSlots s, slotOccupiedSeats existing t < maxCapacity) ∧
    ((∃ e ∈ singleDateAvailableSlots existing, e.slot = s) ↔
      slotOccupiedSeats existing s < maxCapacity) ∧
    (∀ e ∈ batchDateAvailableSlots existing, 0 < e.availableSeats) ∧
    (∀ e ∈ singleDateAvailableSlots existing, 0 < e.availableSeats) :=
  ⟨batchDate_mem_iff existing s hs, singleDate_mem_iff existing s hs,
    fun e he => (batchDate_value existing e he).2,
    fun e he => (singleDate_value existing e he).2⟩

theorem availabilityOmission_witness :
    ∃ e ∈ batchDateAvailableSlots [], e.slot = 0 :=
  ((availabilityOmission [] 0 (by decide)).1).mpr (by decide)

/-- C3 counterexample: with one CONFIRMED six-guest reservation at slot 8
on 2025-06-25, the batch endpoint's entry for that date is not the
single-date endpoint's slot list for the same date and store: the batch
computation (min over the hypothetical occupied set) omits slots 0-7 while
the single-date computation (start-slot usage only) returns them. -/
theorem batchAvailability_counterexample :
    batchAvailability [fullPartyAtSlot8] 20250625 20250625 ≠
      [(20250625, availabilityForDate [fullPartyAtSlot8] 20250625)] := by
  decide

/-- C3 amended: the batch computation has no cross-date interaction — for
every inclusive range `[startDate, endDate]` it maps each date of the
range to the per-date slot list computed from that date's CONFIRMED
reservations alone — but its per-date list is the min-over-the-occupied-set
computation, which does not in general coincide with the single-date
endpoint's start-slot-only list. -/
theorem batchAvailability_independent (store : List Reservation) (d1 d2 : Nat)
    (h12 : d1 ≤ d2) :
    batchAvailability store d1 d2 =
      (List.range' d1 (d2 + 1 - d1)).map
        (fun d => (d, batchDateAvailableSlots (confirmedReservationsOn store d))) := by
  simp only [batchAvailability]
  apply List.map_congr_left
  intro d hd
  rw [List.mem_range'_1] at hd
  have hd2 : d ≤ d2 := by omega
  have hd1 : d1 ≤ d := hd.1
  congr 1
  apply congrArg
  rw [List.filter_filter]
  unfold confirmedReservationsOn
  apply List.filter_congr
  intro r hr
  rw [← Bool.decide_and, decide_eq_decide]
  constructor
  · rintro ⟨h1, h2⟩
    exact ⟨h1, h2.2.2⟩
  · rintro ⟨h1, h2⟩
    exact ⟨h1, by omega, by omega, h2⟩

theorem batchAvailability_independent_witness :
    batchAvailability [fullPartyAtSlot8] 20250625 20250625 =
      (List.range' 20250625 1).map
        (fun d => (d, batchDateAvailableSlots (confirmedReservationsOn [fullPartyAtSlot8] d))) :=
  batchAvailability_independent [fullPartyAtSlot8] 20250625 20250625 (by decide)
